import Mathlib

/-!
Verification of the TaskFlow task manager core (src/modern_task_app.py).

The data model and operations below are a shallow embedding of the Python
source.  Strings are lists of characters, timestamps are integer epoch
seconds, and calendar dates are integer day numbers (a date string
`YYYY-MM-DD` is identified with its day number; `strftime` of a timestamp
is floor division by 86400, and `strptime` of a date string is midnight of
that day, i.e. day * 86400 seconds).  Each mutating operation returns an
`Outcome` recording the resulting in-memory task list, whether
`save_tasks` ran, and which error (if any) was reported; the source
reports errors through message boxes, modelled by the `error` field.
-/

namespace TaskFlow

/-- Strings of the model: lists of characters. -/
abbrev Str := List Char

/-- Task priority, restricted to the three radio-button values. -/
inductive Priority
  | low
  | medium
  | high
deriving DecidableEq

/-- Task status: `pending` or `completed`. -/
inductive Status
  | pending
  | completed
deriving DecidableEq

/-- The error kinds of the spec that the dialogs can report. -/
inductive AppError
  | validation
  | notFound
deriving DecidableEq

/-- A task record, with the seven fields of the JSON objects the source
stores in `self.tasks`.  `created_at` is an epoch-seconds timestamp and
`due_date` a day number. -/
structure Task where
  id : Nat
  title : Str
  description : Str
  priority : Priority
  status : Status
  created_at : Int
  due_date : Int
deriving DecidableEq

/-- Result of a mutating operation: the in-memory task list afterwards,
whether the collection was persisted (`save_tasks` ran), and the error
reported, if any. -/
structure Outcome where
  tasks : List Task
  persisted : Bool
  error : Option AppError
deriving DecidableEq

/-- ASCII whitespace, as stripped by Python `str.strip()`. -/
def isSpacePy (c : Char) : Bool :=
  c == ' ' || c == '\t' || c == '\n' || c == '\r' || c == '\x0b' || c == '\x0c'

/-- Python `str.strip()`: drop leading and trailing whitespace. -/
def strip (s : Str) : Str :=
  ((s.dropWhile isSpacePy).reverse.dropWhile isSpacePy).reverse

/-- Python `str.lower()`, characterwise. -/
def lower (s : Str) : Str := s.map Char.toLower

/-- `startsWith hay needle`: `needle` is a leading segment of `hay`. -/
def startsWith : Str → Str → Bool
  | _, [] => true
  | [], _ :: _ => false
  | c :: cs, d :: ds => c == d && startsWith cs ds

/-- Python's `needle in hay` substring test. -/
def hasSub : Str → Str → Bool
  | [], needle => needle.isEmpty
  | c :: t, needle => startsWith (c :: t) needle || hasSub t needle

/-- `needle` occurs contiguously inside `hay`. -/
def SubstrOf (needle hay : Str) : Prop :=
  ∃ pre post, hay = pre ++ needle ++ post

/-- The search predicate of `filter_tasks` (lines 843-847 of the source):
the lowered search term occurs in the lowered title or description. -/
def searchMatch (term : Str) (t : Task) : Bool :=
  hasSub (lower t.title) (lower term) || hasSub (lower t.description) (lower term)

/-- `add_task` (source lines 438-464, inside `show_add_task_dialog`):
strip the title and description, reject an empty stripped title with a
warning (no append, no save), otherwise append a task with
`id = len(tasks) + 1`, status pending, `created_at = now` and
`due_date = (now + 7 days)` formatted as a date, then save. -/
def add_task (now : Int) (title description : Str) (priority : Priority)
    (tasks : List Task) : Outcome :=
  let t := strip title
  let d := strip description
  if t.isEmpty then
    { tasks := tasks, persisted := false, error := some .validation }
  else
    let newTask : Task :=
      { id := tasks.length + 1, title := t, description := d,
        priority := priority, status := .pending, created_at := now,
        due_date := (now + 7 * 86400).fdiv 86400 }
    { tasks := tasks ++ [newTask], persisted := true, error := none }

/-- The in-place status update of `toggle_task_status`: the for-loop with
`break` updates the first task whose id matches and leaves the rest. -/
def setFirstStatus (i : Nat) (completed : Bool) : List Task → List Task
  | [] => []
  | t :: ts =>
    if t.id = i then
      { t with status := if completed then .completed else .pending } :: ts
    else
      t :: setFirstStatus i completed ts

/-- `toggle_task_status` (source lines 663-672): update the first matching
task (if any), then always save.  The source raises no error for an
unknown id. -/
def toggle_task_status (i : Nat) (completed : Bool) (tasks : List Task) : Outcome :=
  { tasks := setFirstStatus i completed tasks, persisted := true, error := none }

/-- The field assignments of `save_changes` applied to the first task with
the given id; `none` when no task matches (in which case `edit_task`
returns before opening the dialog). -/
def mutateFirst (i : Nat) (newTitle newDescription : Str) (p : Priority) :
    List Task → Option (List Task)
  | [] => none
  | t :: ts =>
    if t.id = i then
      let t2 : Task :=
        { t with
          title := strip newTitle, description := strip newDescription,
          priority := p }
      some (t2 :: ts)
    else
      (mutateFirst i newTitle newDescription p ts).map (t :: ·)

/-- `edit_task` / `save_changes` (source lines 677-794): the task located
by `next(...)` has its title, description and priority assigned first
(source lines 783-785); only afterwards is the (already assigned) title
checked, and an empty title produces a warning and skips the save —
leaving the mutated fields in place. -/
def save_changes (i : Nat) (newTitle newDescription : Str) (p : Priority)
    (tasks : List Task) : Outcome :=
  match mutateFirst i newTitle newDescription p tasks with
  | none => { tasks := tasks, persisted := false, error := none }
  | some tasks2 =>
    if (strip newTitle).isEmpty then
      { tasks := tasks2, persisted := false, error := some .validation }
    else
      { tasks := tasks2, persisted := true, error := none }

/-- `delete_task` (source lines 815-822), confirmed branch: keep exactly
the tasks whose id differs, then save.  The source raises no error for an
unknown id. -/
def delete_task (i : Nat) (tasks : List Task) : Outcome :=
  { tasks := tasks.filter (fun t => !(t.id == i)), persisted := true, error := none }

/-- The five sidebar filters of the source. -/
inductive FilterKind
  | all
  | pending
  | completed
  | high
  | today
deriving DecidableEq

/-- `filter_tasks` (source lines 824-849), the view computation: pick the
filtered list by kind from the full collection, then, when the search box
is non-empty, keep only the filtered tasks matching the search term. -/
def filter_tasks (kind : FilterKind) (term : Str) (todayDay : Int)
    (tasks : List Task) : List Task :=
  let filtered :=
    match kind with
    | .all => tasks
    | .pending => tasks.filter (fun t => t.status == .pending)
    | .completed => tasks.filter (fun t => t.status == .completed)
    | .high => tasks.filter (fun t => t.priority == .high)
    | .today => tasks.filter (fun t => t.due_date == todayDay)
  if term.isEmpty then filtered else filtered.filter (searchMatch term)

/-- The spec's standalone `filter(kind, tasks)` operation: the first stage
of `filter_tasks`. -/
def filterByKind (kind : FilterKind) (todayDay : Int) (tasks : List Task) : List Task :=
  match kind with
  | .all => tasks
  | .pending => tasks.filter (fun t => t.status == .pending)
  | .completed => tasks.filter (fun t => t.status == .completed)
  | .high => tasks.filter (fun t => t.priority == .high)
  | .today => tasks.filter (fun t => t.due_date == todayDay)

/-- The spec's standalone `search(term, tasks)` operation: the second
stage of `filter_tasks`; an empty term leaves the input unchanged. -/
def searchTasks (term : Str) (tasks : List Task) : List Task :=
  if term.isEmpty then tasks else tasks.filter (searchMatch term)

/-- The four urgency classes of the due-date colouring. -/
inductive Urgency
  | overdue
  | dueToday
  | dueSoon
  | normal
deriving DecidableEq

/-- `days_until` of `create_task_card` (source line 639):
`(strptime(due_date) - datetime.now()).days`, i.e. the floor of the
difference between midnight of the due day and the current timestamp,
in whole days. -/
def daysUntil (dueDay now : Int) : Int :=
  (dueDay * 86400 - now).fdiv 86400

/-- The urgency classification of `create_task_card` (source lines
641-653), read off from its colour/text branches on `days_until`. -/
def urgencyOf (dueDay now : Int) : Urgency :=
  if daysUntil dueDay now < 0 then .overdue
  else if daysUntil dueDay now = 0 then .dueToday
  else if daysUntil dueDay now ≤ 3 then .dueSoon
  else .normal

/-- The spec's urgency rule, for comparison with `urgencyOf`: a function
of `due_date - today` in whole days (days < 0 overdue, days = 0 due
today, days ≤ 3 due soon, otherwise normal). -/
def specUrgency (days : Int) : Urgency :=
  if days < 0 then .overdue
  else if days = 0 then .dueToday
  else if days ≤ 3 then .dueSoon
  else .normal

/-- The spec's `Store.nextId`, for comparison with the id the source
assigns: one more than the largest existing id, and 1 on an empty
collection. -/
def specNextId (tasks : List Task) : Nat :=
  (tasks.map Task.id).foldr max 0 + 1

/-- The possible states of the persisted `tasks.json` file: absent,
present but unreadable or unparsable, or well-formed with a task list. -/
inductive FileState
  | missing
  | unreadable
  | wellFormed (tasks : List Task)

/-- `os.path.exists(self.tasks_file)`. -/
def fileExists : FileState → Bool
  | .missing => false
  | .unreadable => true
  | .wellFormed _ => true

/-- `open` followed by `json.load`: any read or parse failure raises. -/
def readAndParse : FileState → Except Unit (List Task)
  | .missing => .error ()
  | .unreadable => .error ()
  | .wellFormed ts => .ok ts

/-- `load_tasks` (source lines 905-913): if the file exists, try to read
and parse it, turning any failure into `[]`; if it does not exist, return
`[]`.  The function is total: no failure escapes to the caller. -/
def load_tasks (fs : FileState) : List Task :=
  if fileExists fs then
    match readAndParse fs with
    | .ok ts => ts
    | .error _ => []
  else []

/-- A concrete stored task used by the closed theorems below. -/
def sampleTask : Task :=
  { id := 1, title := ['G'], description := ['d'], priority := .low,
    status := .pending, created_at := 0, due_date := 7 }

/-- State after `add("A")` from the empty store. -/
def stateA : List Task := (add_task 0 ['A'] [] .low []).tasks

/-- State after `add("A"); add("B")`. -/
def stateAB : List Task := (add_task 0 ['B'] [] .high stateA).tasks

/-- State after `add("A"); add("B"); delete(1)`. -/
def stateOnlyB : List Task := (delete_task 1 stateAB).tasks

/-- State after `add("A"); add("B"); delete(1); add("C")`: the new task
receives `id = len(tasks) + 1 = 2`, colliding with the surviving task. -/
def dupState : List Task := (add_task 0 ['C'] [] .low stateOnlyB).tasks

/-- `startsWith hay needle` holds exactly when `hay` decomposes as
`needle` followed by a remainder. -/
theorem startsWith_iff (h n : Str) :
    startsWith h n = true ↔ ∃ rest, h = n ++ rest := by
  induction n generalizing h with
  | nil => simp [startsWith]
  | cons d ds ih =>
    cases h with
    | nil => simp [startsWith]
    | cons c cs =>
      simp only [startsWith, Bool.and_eq_true, beq_iff_eq, List.cons_append]
      constructor
      · rintro ⟨rfl, hs⟩
        obtain ⟨rest, rfl⟩ := (ih cs).mp hs
        exact ⟨rest, rfl⟩
      · rintro ⟨rest, heq⟩
        injection heq with h1 h2
        exact ⟨h1, (ih cs).mpr ⟨rest, h2⟩⟩

/-- The empty needle is a substring of every string. -/
theorem hasSub_nil (hay : Str) : hasSub hay [] = true := by
  cases hay with
  | nil => rfl
  | cons c t => rfl

/-- `hasSub` agrees with the contiguous-occurrence relation `SubstrOf`. -/
theorem hasSub_iff (hay needle : Str) :
    hasSub hay needle = true ↔ SubstrOf needle hay := by
  induction hay with
  | nil =>
    constructor
    · intro hs
      have : needle = [] := by
        cases needle with
        | nil => rfl
        | cons d ds => exact absurd hs (by simp [hasSub])
      exact ⟨[], [], by simp [this]⟩
    · rintro ⟨pre, post, heq⟩
      have hpre : pre = [] ∧ needle ++ post = [] := by
        simpa using heq.symm
      have hneedle : needle = [] := (List.append_eq_nil.mp hpre.2).1
      simp [hasSub, hneedle]
  | cons c t ih =>
    simp only [hasSub, Bool.or_eq_true, startsWith_iff, ih, SubstrOf]
    constructor
    · rintro (⟨rest, heq⟩ | ⟨pre, post, heq⟩)
      · exact ⟨[], rest, by simpa using heq⟩
      · exact ⟨c :: pre, post, by simp [heq]⟩
    · rintro ⟨pre, post, heq⟩
      cases pre with
      | nil => exact Or.inl ⟨post, by simpa using heq⟩
      | cons a as =>
        injection heq with h1 h2
        exact Or.inr ⟨as, post, h2⟩

/-- Adding seven days to a timestamp advances its calendar date by seven. -/
theorem fdiv_add_seven_days (now : Int) :
    (now + 604800).fdiv 86400 = now.fdiv 86400 + 7 := by
  rw [Int.fdiv_eq_ediv now (by norm_num : (0 : Int) ≤ 86400)]
  rw [Int.fdiv_eq_ediv (now + 604800) (by norm_num : (0 : Int) ≤ 86400)]
  have h7 : (604800 : Int) = 7 * 86400 := by norm_num
  rw [h7]
  exact Int.add_mul_ediv_right now 7 (by norm_num)

/-- The status-toggling loop leaves a list untouched when no id matches. -/
theorem setFirstStatus_absent (i : Nat) (c : Bool) (ts : List Task)
    (h : ∀ t ∈ ts, t.id ≠ i) : setFirstStatus i c ts = ts := by
  induction ts with
  | nil => rfl
  | cons t ts ih =>
    simp only [setFirstStatus]
    rw [if_neg (h t (List.mem_cons_self t ts))]
    rw [ih fun u hu => h u (List.mem_cons_of_mem t hu)]

/-- The status-toggling loop updates the first matching task and nothing
else. -/
theorem setFirstStatus_found (i : Nat) (c : Bool) (pre : List Task) (t : Task)
    (post : List Task) (hpre : ∀ u ∈ pre, u.id ≠ i) (ht : t.id = i) :
    setFirstStatus i c (pre ++ t :: post) =
      pre ++ { t with status := if c then Status.completed else Status.pending } :: post := by
  induction pre with
  | nil =>
    simp only [List.nil_append, setFirstStatus]
    rw [if_pos ht]
  | cons u us ih =>
    simp only [List.cons_append, setFirstStatus]
    rw [if_neg (hpre u (List.mem_cons_self u us))]
    exact congrArg (List.cons u) (ih fun v hv => hpre v (List.mem_cons_of_mem u hv))

/-- C1: the claim that ids stay pairwise unique under add/delete, with
add assigning `1 + max(existing ids)`, fails on the code: `add_task`
assigns `len(tasks) + 1`.  After `add A; add B; delete 1; add C` the
collection holds two tasks with id 2 (the ids are not unique and id 2 is
reused), while the spec's `nextId` would have handed out 3. -/
theorem add_reuses_ids_after_delete :
    dupState.map Task.id = [2, 2]
    ∧ ¬ (dupState.map Task.id).Nodup
    ∧ specNextId stateOnlyB = 3 := by
  exact ⟨by decide, by decide, by decide⟩

/-- C2: the claim that a failed update leaves the targeted task
completely unchanged fails on the code: `save_changes` assigns the new
title, description and priority before validating, so updating the
stored task with a whitespace title reports the validation failure and
skips the save, yet the in-memory task ends up mutated with an empty
title. -/
theorem save_changes_mutates_before_validating :
    (save_changes 1 [' ', ' '] ['x'] Priority.high [sampleTask]).error
        = some AppError.validation
    ∧ (save_changes 1 [' ', ' '] ['x'] Priority.high [sampleTask]).persisted = false
    ∧ (save_changes 1 [' ', ' '] ['x'] Priority.high [sampleTask]).tasks ≠ [sampleTask]
    ∧ (save_changes 1 [' ', ' '] ['x'] Priority.high [sampleTask]).tasks.map Task.title
        = [[]] := by
  exact ⟨by decide, by decide, by decide, by decide⟩

/-- C3: the claim that urgency is a pure function of `due_date - today`
in whole days fails on the code: `days_until` subtracts the current
timestamp from midnight of the due day, so a task due today, viewed at
noon, gets `days_until = -1` and is classified overdue, where the spec's
classification of the zero-day difference is dueToday. -/
theorem urgency_due_today_misclassified :
    urgencyOf 1 (1 * 86400 + 43200) = Urgency.overdue
    ∧ daysUntil 1 (1 * 86400 + 43200) = -1
    ∧ specUrgency 0 = Urgency.dueToday := by
  exact ⟨by decide, by decide, by decide⟩

/-- C4 counterexample: deleting an absent id does not fail with
`NotFoundError`; it silently succeeds with the collection unchanged. -/
theorem delete_task_absent_counterexample :
    (delete_task 5 [sampleTask]).error ≠ some AppError.notFound
    ∧ (delete_task 5 [sampleTask]).tasks = [sampleTask] := by
  exact ⟨by decide, by decide⟩

/-- C4 (amended): deleting an id that no task carries reports no error
and leaves the collection unchanged (the unchanged collection is still
persisted). -/
theorem delete_task_absent_no_error (i : Nat) (tasks : List Task)
    (h : ∀ t ∈ tasks, t.id ≠ i) :
    delete_task i tasks = ⟨tasks, true, none⟩ := by
  unfold delete_task
  have hf : tasks.filter (fun t => !(t.id == i)) = tasks :=
    List.filter_eq_self.mpr fun t ht => by simpa using h t ht
  rw [hf]

/-- C4 witness: deleting id 7 from a collection whose only task has id 1. -/
theorem delete_task_absent_no_error_witness :
    delete_task 7 [sampleTask] = ⟨[sampleTask], true, none⟩ :=
  delete_task_absent_no_error 7 [sampleTask] (by decide)

/-- C5 counterexample: setting the status of an absent id does not fail
with `NotFoundError`; no error is reported and the collection is
unchanged. -/
theorem toggle_task_status_absent_counterexample :
    (toggle_task_status 8 true [sampleTask]).error ≠ some AppError.notFound
    ∧ (toggle_task_status 8 true [sampleTask]).tasks = [sampleTask] := by
  exact ⟨by decide, by decide⟩

/-- C5 (amended): for an absent id, `toggle_task_status` reports no error
and leaves the collection unchanged (still persisting it); for a present
id it sets the first task carrying that id to completed or pending
accordingly, leaves every other task alone, and persists. -/
theorem toggle_task_status_spec (i : Nat) (c : Bool) (tasks : List Task) :
    ((∀ t ∈ tasks, t.id ≠ i) →
      toggle_task_status i c tasks = ⟨tasks, true, none⟩)
    ∧ (∀ pre t post, tasks = pre ++ t :: post → (∀ u ∈ pre, u.id ≠ i) → t.id = i →
      toggle_task_status i c tasks =
        ⟨pre ++ { t with status := if c then Status.completed else Status.pending } :: post,
          true, none⟩) := by
  constructor
  · intro h
    unfold toggle_task_status
    rw [setFirstStatus_absent i c tasks h]
  · intro pre t post hsplit hpre ht
    subst hsplit
    unfold toggle_task_status
    rw [setFirstStatus_found i c pre t post hpre ht]

/-- C5 witness: toggling id 9 in a collection whose only task has id 1. -/
theorem toggle_task_status_spec_witness :
    toggle_task_status 9 true [sampleTask] = ⟨[sampleTask], true, none⟩ :=
  (toggle_task_status_spec 9 true [sampleTask]).1 (by decide)

/-- C6: the view computed by `filter_tasks` is the search applied to the
filtered result — filter first, then search within it. -/
theorem filter_tasks_is_search_after_filter (kind : FilterKind) (term : Str)
    (todayDay : Int) (tasks : List Task) :
    filter_tasks kind term todayDay tasks
      = searchTasks term (filterByKind kind todayDay tasks) := by
  cases kind <;> rfl

/-- C7: with a title that is non-empty after stripping, `add_task`
appends exactly one task — pending, created at the current timestamp,
due on the creation date plus 7 days — and persists; with a title that
strips to empty it reports a validation failure and leaves the
collection unchanged and unpersisted. -/
theorem add_task_spec (now : Int) (title description : Str) (p : Priority)
    (tasks : List Task) :
    (strip title ≠ [] →
      add_task now title description p tasks =
        ⟨tasks ++ [Task.mk (tasks.length + 1) (strip title) (strip description)
            p Status.pending now (now.fdiv 86400 + 7)], true, none⟩)
    ∧ (strip title = [] →
      add_task now title description p tasks = ⟨tasks, false, some AppError.validation⟩) := by
  constructor
  · intro h
    have hne : (strip title).isEmpty = false := by
      cases hs : strip title with
      | nil => exact absurd hs h
      | cons a l => rfl
    simp [add_task, hne, fdiv_add_seven_days]
  · intro h
    simp [add_task, h]

/-- C7 witness: adding a one-letter title to the empty collection. -/
theorem add_task_spec_witness :
    add_task 0 ['B'] [] Priority.low [] =
      ⟨[Task.mk 1 (strip ['B']) (strip []) Priority.low Status.pending 0
          ((0 : Int).fdiv 86400 + 7)], true, none⟩ :=
  (add_task_spec 0 ['B'] [] Priority.low []).1 (by decide)

/-- C8: `searchTasks` keeps exactly the tasks whose lowered title or
description contains the lowered term as a contiguous substring, and the
empty term is the identity. -/
theorem searchTasks_characterization (term : Str) (tasks : List Task) :
    searchTasks term tasks = tasks.filter (searchMatch term)
    ∧ (∀ t, searchMatch term t = true ↔
        (SubstrOf (lower term) (lower t.title) ∨ SubstrOf (lower term) (lower t.description)))
    ∧ searchTasks [] tasks = tasks := by
  refine ⟨?_, ?_, rfl⟩
  · cases term with
    | nil =>
      exact (List.filter_eq_self.mpr fun t _ => by
        simp [searchMatch, lower, hasSub_nil]).symm
    | cons c cs => rfl
  · intro t
    simp only [searchMatch, Bool.or_eq_true, hasSub_iff]

/-- C9: `load_tasks` is a total function of the file state — no failure
escapes to the caller — returning `[]` when the file is missing or
unreadable or unparsable, and the parsed collection otherwise. -/
theorem load_tasks_fail_open :
    load_tasks FileState.missing = []
    ∧ load_tasks FileState.unreadable = []
    ∧ ∀ ts, load_tasks (FileState.wellFormed ts) = ts := by
  exact ⟨rfl, rfl, fun ts => rfl⟩

/-- C10: one call to `delete_task` removes every task whose id equals the
given id, not only the first; such duplicate states are reachable (after
`add A; add B; delete 1; add C` both tasks carry id 2), and a single
delete then empties the collection. -/
theorem delete_task_removes_all_matching :
    (∀ (tasks : List Task) (i : Nat) (t : Task),
        t ∈ (delete_task i tasks).tasks ↔ t ∈ tasks ∧ t.id ≠ i)
    ∧ dupState.map Task.id = [2, 2]
    ∧ (delete_task 2 dupState).tasks = [] := by
  refine ⟨fun tasks i t => ?_, by decide, by decide⟩
  simp [delete_task, List.mem_filter]

end TaskFlow
